import Mathlib

/-!
Verification of the mnemos framebuf core: the future-box ownership-handoff
primitive (`src/firmware/kernel/src/future_box.rs`) and the non-blocking
SPIM driver (`src/firmware/kernel/src/drivers/nrf52_spim_nonblocking.rs`).

The Rust source is translated into a shallow embedding: the shared control
block (`FutureBox`) becomes an explicit record that operations thread
through; `u8` fields are `Nat` reduced mod 256 where arithmetic occurs;
fallible operations return `Except`; Rust panic sites become an explicit
`PanicKind` error value.
-/

namespace Mnemos

namespace status

/-- Kernel is working, and should be allowed exclusive access. -/
def KERNEL_ACCESS : Nat := 0

/-- Userspace is working, and should be allowed exclusive access. -/
def USERSPACE_ACCESS : Nat := 1

/-- The future has completed (on either side). -/
def COMPLETED : Nat := 2

/-- This future encountered an error, and will never reach the completed stage. -/
def ERROR : Nat := 3

/-- Used to signify a handle that will only ever pend error or completed. -/
def INVALID : Nat := 4

end status

/-- The shared control block `FutureBox<T>`.  The `payload` field models the
`AtomicPtr<T>`: `some t` is a non-null pointer to the payload value `t`,
`none` is the null pointer stored after the payload has been freed. -/
structure FutureBox (T : Type) where
  status : Nat
  refcnt : Nat
  ex_taken : Bool
  payload : Option T
deriving DecidableEq

/-- An exclusive handle `FutureBoxExHdl<T>`: shared access to the control
block plus a cached pointer to the payload.  In this pure embedding the
handle carries the control-block state by value; the cached payload pointer
is carried as the payload value itself. -/
structure ExHdl (T : Type) where
  fb : FutureBox T
  payload : T
deriving DecidableEq

/-- A pending handle `FutureBoxPendHdl<T>`: shared access to the control
block, no payload access, plus the awaited status tag. -/
structure PendHdl (T : Type) where
  fb : FutureBox T
  awaiting : Nat
deriving DecidableEq

variable {T : Type}

/-- The `Drop` implementation for `FutureBoxExHdl<T>`: `refcnt.fetch_sub(1)`
(wrapping `u8` arithmetic), then `status := ERROR`, the payload is freed and
the pointer nulled, and `ex_taken := false`.  The returned `Bool` is the
`drop_fb` flag: `true` when this was the last handle, in which case the
control block itself is freed. -/
def ExHdl.drop (h : ExHdl T) : FutureBox T × Bool :=
  let pre := h.fb.refcnt
  (⟨status.ERROR, (pre + 255) % 256, false, none⟩, pre ≤ 1)

/-- `FutureBoxExHdl::convert_to_monitor`: build a pending handle on the same
control block awaiting `INVALID`, and `mem::forget` the exclusive handle so
the reference count is untouched. -/
def ExHdl.convert_to_monitor (h : ExHdl T) : PendHdl T :=
  ⟨h.fb, status.INVALID⟩

/-- `FutureBoxExHdl::release_to_userspace`: store `USERSPACE_ACCESS` into
`status`, clear `ex_taken`, then `convert_to_monitor`. -/
def ExHdl.release_to_userspace (h : ExHdl T) : PendHdl T :=
  ExHdl.convert_to_monitor
    ⟨{ h.fb with status := status.USERSPACE_ACCESS, ex_taken := false }, h.payload⟩

/-- `FutureBoxExHdl::release_to_kernel`: store `KERNEL_ACCESS` into
`status`, clear `ex_taken`, then `convert_to_monitor`. -/
def ExHdl.release_to_kernel (h : ExHdl T) : PendHdl T :=
  ExHdl.convert_to_monitor
    ⟨{ h.fb with status := status.KERNEL_ACCESS, ex_taken := false }, h.payload⟩

/-- `FutureBoxExHdl::release_to_error`: store `ERROR` into `status`, free
the payload and null the pointer, clear `ex_taken`. -/
def ExHdl.release_to_error (h : ExHdl T) : FutureBox T :=
  { h.fb with status := status.ERROR, payload := none, ex_taken := false }

/-- `FutureBoxExHdl::release_to_complete` as the source writes it: it stores
`status::ERROR` (not `status::COMPLETED`), frees the payload and nulls the
pointer, and clears `ex_taken` — its body is identical to
`release_to_error`. -/
def ExHdl.release_to_complete (h : ExHdl T) : FutureBox T :=
  { h.fb with status := status.ERROR, payload := none, ex_taken := false }

/-- `FutureBoxPendHdl::is_complete`: `COMPLETED` maps to `Ok(true)`,
`ERROR` to `Err(())`, anything else to `Ok(false)`. -/
def PendHdl.is_complete (p : PendHdl T) : Except Unit Bool :=
  if p.fb.status = status.COMPLETED then .ok true
  else if p.fb.status = status.ERROR then .error ()
  else .ok false

/-- `FutureBoxPendHdl::try_upgrade`.  The result pairs the control block
after the call with the returned value: `.error ()` is `Err(())`,
`.ok none` is `Ok(None)`, and `.ok (some pl)` is `Ok(Some(fresh handle))`
whose cached payload pointer is `pl` (the value loaded from the block's
payload pointer, `none` when that pointer is null). -/
def PendHdl.try_upgrade (p : PendHdl T) : FutureBox T × Except Unit (Option (Option T)) :=
  if p.fb.ex_taken then
    (p.fb, .ok none)
  else
    let fb1 := { p.fb with ex_taken := true }
    if fb1.status = status.ERROR then
      ({ fb1 with ex_taken := false }, .error ())
    else if fb1.status = p.awaiting then
      ({ fb1 with refcnt := (fb1.refcnt + 1) % 256 }, .ok (some fb1.payload))
    else
      ({ fb1 with ex_taken := false }, .ok none)

/-- The source defines no `Drop` implementation for `FutureBoxPendHdl<T>`,
so dropping a pending handle leaves the control block untouched: no
decrement of `refcnt`, no teardown. -/
def PendHdl.drop (p : PendHdl T) : FutureBox T :=
  p.fb

/-- Origin tag of an allocation (`Source` in the source tree). -/
inductive Source
  | Kernel
  | Userspace
deriving DecidableEq

/-- Modelled from the spec: `FutureBoxExHdl::new_exclusive` is called by the
driver but its definition is absent from the `future_box.rs` in `src/`.
Per spec §4.1 (*Allocate*): the control block starts with `live_refs = 1`,
`exclusive_taken = true`, `status` set to the origin's access tag, and an
exclusive handle is returned. -/
def new_exclusive (payload : T) (src : Source) : ExHdl T :=
  let tag := match src with
    | .Kernel => status.KERNEL_ACCESS
    | .Userspace => status.USERSPACE_ACCESS
  ⟨⟨tag, 1, true, some payload⟩, payload⟩

/-- Modelled from the spec: `FutureBoxExHdl::create_monitor` is called by
the driver but its definition is absent from the `future_box.rs` in `src/`.
Per spec §4.1 (*Create monitor*): produce a pending handle sharing the same
control block without releasing exclusivity, incrementing `live_refs`; the
observer handle awaits the sentinel tag (only error/completion are of
interest).  Returns the exclusive handle (over the updated block) together
with the monitor. -/
def ExHdl.create_monitor (h : ExHdl T) : ExHdl T × PendHdl T :=
  let fb := { h.fb with refcnt := (h.fb.refcnt + 1) % 256 }
  (⟨fb, h.payload⟩, ⟨fb, status.INVALID⟩)

/-- The try-upgrade outcomes exactly as the specification words them
(spec §4.1, outcomes (a)–(d), taken in the order the spec lists them), to
be compared with the source translation `PendHdl.try_upgrade`:
(a) acquisition fails → `Ok(None)`, nothing else touched;
(b) acquisition succeeds, terminal error status → exclusivity released
again, permanent `Err`;
(c) acquisition succeeds, status equals the awaited tag → fresh exclusive
handle, `live_refs` incremented;
(d) acquisition succeeds, other non-matching tag → exclusivity released,
`Ok(None)`. -/
def tryUpgradeSpec (p : PendHdl T) : FutureBox T × Except Unit (Option (Option T)) :=
  if p.fb.ex_taken then
    (p.fb, .ok none)
  else if p.fb.status = status.ERROR then
    (p.fb, .error ())
  else if p.fb.status = p.awaiting then
    ({ p.fb with ex_taken := true, refcnt := (p.fb.refcnt + 1) % 256 }, .ok (some p.fb.payload))
  else
    (p.fb, .ok none)

/-! The non-blocking SPIM driver (`nrf52_spim_nonblocking.rs`).  Hardware
registers are modelled as plain record fields; the `starts` counter counts
`TASKS_START` triggers so that "a new transfer was started" is observable.
Rust panic sites (`unwrap`, the `Err(e)` arm of `end_send`) surface as a
`PanicKind` error value. -/

/-- Driver state: `Idle` or `Transferring`. -/
inductive State
  | Idle
  | Transferring
deriving DecidableEq

/-- The transfer payload: transmit buffer (bytes as `Nat`s), chip-select
index (`u8`), and requested clock speed in kHz (`u32`). -/
structure SendTransaction where
  data : List Nat
  csn : Nat
  speed_khz : Nat
deriving DecidableEq

instance : Inhabited SendTransaction := ⟨⟨[], 0, 0⟩⟩

/-- An in-flight queue entry: an exclusive handle plus the count of bytes
already transmitted. -/
structure InProgress where
  data : ExHdl SendTransaction
  start_offset : Nat
deriving DecidableEq

/-- The SPIM3 peripheral registers the driver reads and writes.  `starts`
counts writes to `TASKS_START`. -/
structure Periph where
  events_end : Bool
  events_stopped : Bool
  txd_amount : Nat
  rxd_amount : Nat
  txd_maxcnt : Nat
  rxd_maxcnt : Nat
  frequency : Nat
  starts : Nat
deriving DecidableEq

/-- A DMA region descriptor.  The source's pointer field is an address with
no observable role in this embedding, so only the length is kept. -/
structure DmaSlice where
  len : Nat
deriving DecidableEq

/-- `DmaSlice::null()`. -/
def DmaSlice.null : DmaSlice := ⟨0⟩

/-- The peripheral error enum of the driver module. -/
inductive Error
  | TxBufferTooLong
  | RxBufferTooLong
  | DMABufferNotInDataMemory
  | Transmit
  | Receive
  | NotDone
deriving DecidableEq

/-- `SpimInner::clear_events`: read both event flags, reset whichever was
set, and return `(is_ended, is_stopped)`. -/
def Periph.clear_events (p : Periph) : Periph × Bool × Bool :=
  ({ p with events_end := false, events_stopped := false }, p.events_end, p.events_stopped)

/-- `SpimInner::do_spi_dma_transfer_end`: clear the event flags; if neither
was set report `NotDone`, otherwise read back the transmitted/received byte
counts. -/
def Periph.dma_transfer_end (p : Periph) : Periph × Except Error (Nat × Nat) :=
  let r := p.clear_events
  if !(r.2.1 || r.2.2) then (r.1, .error .NotDone)
  else (r.1, .ok (r.1.txd_amount, r.1.rxd_amount))

/-- `SpimInner::do_spi_dma_transfer_start`: program the transmit/receive
address and length registers and trigger the start task. -/
def Periph.dma_transfer_start (p : Periph) (tx rx : DmaSlice) : Periph :=
  { p with txd_maxcnt := tx.len, rxd_maxcnt := rx.len, starts := p.starts + 1 }

/-- `SpimInner::change_speed`: banded frequency selection, failing below
125 kHz.  The stored value is the selected band's frequency in kHz. -/
def Periph.change_speed (p : Periph) (freq_khz : Nat) : Except Unit Periph :=
  if freq_khz ≤ 124 then .error ()
  else if freq_khz ≤ 249 then .ok { p with frequency := 125 }
  else if freq_khz ≤ 499 then .ok { p with frequency := 250 }
  else if freq_khz ≤ 999 then .ok { p with frequency := 500 }
  else if freq_khz ≤ 1999 then .ok { p with frequency := 1000 }
  else if freq_khz ≤ 3999 then .ok { p with frequency := 2000 }
  else if freq_khz ≤ 7999 then .ok { p with frequency := 4000 }
  else if freq_khz ≤ 15999 then .ok { p with frequency := 8000 }
  else if freq_khz ≤ 31999 then .ok { p with frequency := 16000 }
  else .ok { p with frequency := 32000 }

/-- The driver instance: peripheral, in-flight queue `vdq` (bounded at 8),
allocation-pending queue `waiting` (bounded at 8), chip-select pin levels
(`true` is the inactive idle level), and the state enum. -/
structure Spim where
  periph : Periph
  vdq : List InProgress
  waiting : List (PendHdl SendTransaction)
  csns : List Bool
  state : State
deriving DecidableEq

/-- `csns.get_mut(i).unwrap().set_pin(level)`: `none` models the `unwrap`
panic on an out-of-range index. -/
def setPin (csns : List Bool) (i : Nat) (level : Bool) : Option (List Bool) :=
  if i < csns.length then some (csns.set i level) else none

/-- Distinguishes the driver's panic sites: the `panic!` on a DMA poll
error in `end_send`, the chip-select `unwrap`, the `change_speed` `unwrap`
in `start_send`, and the queue `push_front` `unwrap`s. -/
inductive PanicKind
  | dmaPollError
  | csnOutOfRange
  | speedUnsupported
  | queueOverflow
deriving DecidableEq

/-- Ghost trace of control blocks at the moment the driver gives up their
exclusive handle: `dropped` for a plain handle drop (the state recorded is
the block after `Drop` ran), `completed` for `release_to_complete`. -/
inductive Freed
  | dropped (fb : FutureBox SendTransaction)
  | completed (fb : FutureBox SendTransaction)
deriving DecidableEq

/-- The loop body of `Spim::flush_waiting`: while the in-flight queue has
headroom, pop the front pending handle and try to upgrade it; on success
push it at the back of the in-flight queue with offset 0; on "not ready"
put it back at the front and stop; on permanent error drop it and
continue.  Returns the final `(waiting, vdq)` pair. -/
def flushLoop : List (PendHdl SendTransaction) → List InProgress →
    List (PendHdl SendTransaction) × List InProgress
  | [], vdq => ([], vdq)
  | p :: rest, vdq =>
    if 8 ≤ vdq.length then (p :: rest, vdq)
    else
      match p.try_upgrade with
      | (fb1, .ok (some pl)) =>
        flushLoop rest (vdq ++ [⟨⟨fb1, pl.getD default⟩, 0⟩])
      | (fb1, .ok none) => (⟨fb1, p.awaiting⟩ :: rest, vdq)
      | (_, .error _) => flushLoop rest vdq

/-- `Spim::flush_waiting`. -/
def Spim.flush_waiting (s : Spim) : Spim :=
  { s with waiting := (flushLoop s.waiting s.vdq).1, vdq := (flushLoop s.waiting s.vdq).2 }

/-- `Spim::start_send` after its initial `flush_waiting` call: no-op if
already `Transferring` or if the queue is empty; pop the front entry; if
its offset already covers the buffer, return (dropping the popped entry —
its exclusive handle's `Drop` runs); otherwise reprogram the speed, assert
the chip-select pin, issue the DMA start for the remaining bytes, push the
entry back at the front, and transition to `Transferring`. -/
def Spim.start_send_post (s : Spim) : Except PanicKind (Spim × List Freed) :=
  match s.state with
  | .Transferring => .ok (s, [])
  | .Idle =>
    match s.vdq with
    | [] => .ok (s, [])
    | data :: rest =>
      if data.data.payload.data.length > data.start_offset then
        match s.periph.change_speed data.data.payload.speed_khz with
        | .error _ => .error .speedUnsupported
        | .ok p1 =>
          match setPin s.csns data.data.payload.csn false with
          | none => .error .csnOutOfRange
          | some cs1 =>
            if 8 ≤ rest.length then .error .queueOverflow
            else .ok (Spim.mk (p1.dma_transfer_start (DmaSlice.mk (data.data.payload.data.length - data.start_offset)) DmaSlice.null) (data :: rest) s.waiting cs1 State.Transferring, [])
      else
        .ok (Spim.mk s.periph rest s.waiting s.csns State.Idle, [.dropped (data.data.drop).1])

/-- `Spim::start_send`: `flush_waiting` first, then the body. -/
def Spim.start_send (s : Spim) : Except PanicKind (Spim × List Freed) :=
  s.flush_waiting.start_send_post

/-- `Spim::end_send` after its initial `flush_waiting` call: swap the state
back to `Idle`; on a spurious event (`Idle`, or `Transferring` with an
empty queue) just clear the event flags; otherwise pop the front entry and
poll the DMA engine: a poll error panics; on `Ok(tx_len, _)` deassert the
chip-select pin, then either release-to-complete and chain `start_send`
(full transmission) or advance the offset and push the entry back at the
front (short transfer, no restart). -/
def Spim.end_send_post (s : Spim) : Except PanicKind (Spim × List Freed) :=
  match s.state with
  | .Idle => .ok (Spim.mk s.periph.clear_events.1 s.vdq s.waiting s.csns State.Idle, [])
  | .Transferring =>
    match s.vdq with
    | [] => .ok (Spim.mk s.periph.clear_events.1 s.vdq s.waiting s.csns State.Idle, [])
    | wip :: rest =>
      match s.periph.dma_transfer_end with
      | (_, .error _) => .error .dmaPollError
      | (p1, .ok (tx_len, _rx_len)) =>
        match setPin s.csns wip.data.payload.csn true with
        | none => .error .csnOutOfRange
        | some cs1 =>
          if tx_len + wip.start_offset = wip.data.payload.data.length then
            match (Spim.mk p1 rest s.waiting cs1 State.Idle).start_send with
            | .error k => .error k
            | .ok (s3, fr) => .ok (s3, Freed.completed wip.data.release_to_complete :: fr)
          else
            if 8 ≤ rest.length then .error .queueOverflow
            else .ok (Spim.mk p1 (InProgress.mk wip.data (wip.start_offset + tx_len) :: rest) s.waiting cs1 State.Idle, [])

/-- `Spim::end_send`: `flush_waiting` first, then the body. -/
def Spim.end_send (s : Spim) : Except PanicKind (Spim × List Freed) :=
  s.flush_waiting.end_send_post

/-- `Spim::send`: reject a chip-select index out of range, returning the
handle unconsumed; create a monitor; append an in-flight entry with
`start_offset = 0`, returning the handle on a full queue; if `Idle`, kick
off `start_send`; return the monitor. -/
def Spim.send (s : Spim) (st : ExHdl SendTransaction) :
    Except PanicKind (Spim × List Freed ×
      Except (ExHdl SendTransaction) (PendHdl SendTransaction)) :=
  if s.csns.length ≤ st.payload.csn then .ok (s, [], .error st)
  else
    let m := st.create_monitor
    if 8 ≤ s.vdq.length then .ok (s, [], .error m.1)
    else
      let s1 : Spim := { s with vdq := s.vdq ++ [⟨m.1, 0⟩] }
      match s1.state with
      | .Idle =>
        match s1.start_send with
        | .error k => .error k
        | .ok (s2, fr) => .ok (s2, fr, .ok m.2)
      | .Transferring => .ok (s1, [], .ok m.2)

/-! A labelled transition system for the concurrent protocol of
`try_upgrade`, the release operations, and exclusive-handle drops, at the
granularity of the source's individual atomic operations on the control
block (`compare_exchange`, `load`, `store`, `fetch_add`, `fetch_sub`).
Each agent is either an in-flight `try_upgrade` call or a live exclusive
handle part-way through being given up; the payload pointer plays no role
in the mutual-exclusion protocol and is omitted from the configuration. -/

/-- Program counter of an in-flight `try_upgrade` call: before the
compare-exchange on `ex_taken`, or after a successful compare-exchange
(holding the exclusivity token) but before the status check resolves. -/
inductive UpPC
  | ready
  | haveToken
deriving DecidableEq

/-- Program counter of an exclusive handle: alive; mid-release (the status
store of a release operation has executed, the `ex_taken` clear has not);
mid-drop after the `refcnt.fetch_sub`; mid-drop after the `status` store. -/
inductive ExPC
  | live
  | relStored
  | dropSubbed
  | dropStored
deriving DecidableEq

/-- An agent of the protocol: an upgrader (a `try_upgrade` call on a
pending handle with its awaited tag) or an exclusive-handle holder. -/
inductive Agent
  | upgrader (awaiting : Nat) (pc : UpPC)
  | holder (pc : ExPC)
deriving DecidableEq

/-- A configuration: the control block's shared fields plus the list of
currently existing agents. -/
structure Conf where
  status : Nat
  refcnt : Nat
  ex_taken : Bool
  agents : List Agent
deriving DecidableEq

/-- Interleaved atomic steps of the protocol.  `spawn` models any pending
handle beginning a `try_upgrade` call at any time; `casSucc`/`casFail` are
the `compare_exchange` on `ex_taken`; `upErr`/`upMatch`/`upMiss` resolve a
token-holding upgrader against the loaded status (`upMatch` performs the
`refcnt.fetch_add` and produces a live exclusive handle); `relStore` is the
status store of any release operation and `relFinish` its `ex_taken` clear,
which consumes the handle; `dropSub`/`dropStore`/`dropFinish` are the three
atomic stages of the exclusive handle's `Drop` implementation. -/
inductive Step : Conf → Conf → Prop
  | spawn (c : Conf) (aw : Nat) :
      Step c ⟨c.status, c.refcnt, c.ex_taken, c.agents ++ [.upgrader aw .ready]⟩
  | casFail (c : Conf) (aw : Nat) (l r : List Agent) :
      c.agents = l ++ .upgrader aw .ready :: r → c.ex_taken = true →
      Step c ⟨c.status, c.refcnt, c.ex_taken, l ++ r⟩
  | casSucc (c : Conf) (aw : Nat) (l r : List Agent) :
      c.agents = l ++ .upgrader aw .ready :: r → c.ex_taken = false →
      Step c ⟨c.status, c.refcnt, true, l ++ .upgrader aw .haveToken :: r⟩
  | upErr (c : Conf) (aw : Nat) (l r : List Agent) :
      c.agents = l ++ .upgrader aw .haveToken :: r → c.status = status.ERROR →
      Step c ⟨c.status, c.refcnt, false, l ++ r⟩
  | upMatch (c : Conf) (aw : Nat) (l r : List Agent) :
      c.agents = l ++ .upgrader aw .haveToken :: r → c.status ≠ status.ERROR →
      c.status = aw →
      Step c ⟨c.status, (c.refcnt + 1) % 256, c.ex_taken, l ++ .holder .live :: r⟩
  | upMiss (c : Conf) (aw : Nat) (l r : List Agent) :
      c.agents = l ++ .upgrader aw .haveToken :: r → c.status ≠ status.ERROR →
      c.status ≠ aw →
      Step c ⟨c.status, c.refcnt, false, l ++ r⟩
  | relStore (c : Conf) (t : Nat) (l r : List Agent) :
      c.agents = l ++ .holder .live :: r →
      Step c ⟨t, c.refcnt, c.ex_taken, l ++ .holder .relStored :: r⟩
  | relFinish (c : Conf) (l r : List Agent) :
      c.agents = l ++ .holder .relStored :: r →
      Step c ⟨c.status, c.refcnt, false, l ++ r⟩
  | dropSub (c : Conf) (l r : List Agent) :
      c.agents = l ++ .holder .live :: r →
      Step c ⟨c.status, (c.refcnt + 255) % 256, c.ex_taken, l ++ .holder .dropSubbed :: r⟩
  | dropStore (c : Conf) (l r : List Agent) :
      c.agents = l ++ .holder .dropSubbed :: r →
      Step c ⟨status.ERROR, c.refcnt, c.ex_taken, l ++ .holder .dropStored :: r⟩
  | dropFinish (c : Conf) (l r : List Agent) :
      c.agents = l ++ .holder .dropStored :: r →
      Step c ⟨c.status, c.refcnt, false, l ++ r⟩

/-- The configuration produced by `new_exclusive`: one live exclusive
handle, `refcnt = 1`, `ex_taken = true`, status the origin tag. -/
def initConf (origin : Nat) : Conf :=
  ⟨origin, 1, true, [.holder .live]⟩

/-- Reachability from the allocation configuration by interleaved steps. -/
def Reach (origin : Nat) (c : Conf) : Prop :=
  Relation.ReflTransGen Step (initConf origin) c

/-- Is this agent an exclusive handle (in any stage of being given up)? -/
def Agent.isHolder : Agent → Bool
  | .holder _ => true
  | .upgrader _ _ => false

/-- Does this agent hold the exclusivity token: an exclusive handle, or an
upgrader whose compare-exchange succeeded and has not yet resolved? -/
def Agent.hasToken : Agent → Bool
  | .holder _ => true
  | .upgrader _ .haveToken => true
  | .upgrader _ .ready => false

/-- Number of exclusive handles in a configuration. -/
def exCount (ags : List Agent) : Nat :=
  (ags.filter Agent.isHolder).length

/-- Number of token holders in a configuration. -/
def tokCount (ags : List Agent) : Nat :=
  (ags.filter Agent.hasToken).length

/-- The protocol invariant: at most one token holder, and none at all when
`ex_taken` is clear. -/
def Inv (c : Conf) : Prop :=
  tokCount c.agents ≤ 1 ∧ (c.ex_taken = false → tokCount c.agents = 0)

/-! Concrete sample values used to instantiate theorems. -/

/-- A transfer payload with an `n`-byte zeroed buffer on chip select 0 at
1000 kHz. -/
def sampleTx (n : Nat) : SendTransaction :=
  ⟨List.replicate n 0, 0, 1000⟩

/-- A kernel-owned control block holding `sampleTx n`, with one reference
and exclusivity taken, together with its exclusive handle. -/
def sampleHdl (n : Nat) : ExHdl SendTransaction :=
  ⟨⟨status.KERNEL_ACCESS, 1, true, some (sampleTx n)⟩, sampleTx n⟩

/-- An in-flight entry over `sampleHdl n` with the given start offset. -/
def sampleEntry (n off : Nat) : InProgress :=
  ⟨sampleHdl n, off⟩

/-- Peripheral state with the `end` event pending and 16 bytes reported
transmitted. -/
def samplePeriphEnd : Periph :=
  ⟨true, false, 16, 0, 0, 0, 0, 5⟩

/-- Peripheral state with the `end` event pending and 8 bytes reported
transmitted. -/
def samplePeriphShort : Periph :=
  ⟨true, false, 8, 0, 0, 0, 0, 5⟩

/-- Peripheral state with no event pending. -/
def samplePeriphQuiet : Periph :=
  ⟨false, false, 0, 0, 0, 0, 0, 0⟩

/-! Counting lemmas for the protocol invariant. -/

theorem tokCount_nil : tokCount [] = 0 := rfl

theorem tokCount_append (l r : List Agent) :
    tokCount (l ++ r) = tokCount l + tokCount r := by
  simp [tokCount, List.filter_append]

theorem tokCount_cons (a : Agent) (r : List Agent) :
    tokCount (a :: r) = (if Agent.hasToken a then 1 else 0) + tokCount r := by
  by_cases hA : Agent.hasToken a
  · simp [tokCount, List.filter_cons, hA]
    omega
  · simp [tokCount, List.filter_cons, hA]

theorem hasToken_ready (aw : Nat) : Agent.hasToken (.upgrader aw .ready) = false := rfl

theorem hasToken_haveToken (aw : Nat) : Agent.hasToken (.upgrader aw .haveToken) = true := rfl

theorem hasToken_holder (pc : ExPC) : Agent.hasToken (.holder pc) = true := rfl

theorem count_holder_le_token (ags : List Agent) :
    exCount ags ≤ tokCount ags := by
  induction ags with
  | nil => exact Nat.le_refl 0
  | cons a t ih =>
    cases a with
    | holder pc =>
      simp only [exCount, tokCount, List.filter_cons, Agent.isHolder, Agent.hasToken,
        if_true, List.length_cons] at *
      omega
    | upgrader aw pc =>
      cases pc <;>
        simp only [exCount, tokCount, List.filter_cons, Agent.isHolder, Agent.hasToken,
          Bool.false_eq_true, if_false, if_true, List.length_cons] at * <;>
        omega

theorem step_preserves_inv {c c' : Conf} (h : Step c c') (hi : Inv c) : Inv c' := by
  unfold Inv at hi ⊢
  obtain ⟨h1, h2⟩ := hi
  cases h with
  | spawn aw =>
    refine ⟨?_, fun hex => ?_⟩ <;>
      simp only [tokCount_append, tokCount_cons, tokCount_nil, hasToken_ready,
        Bool.false_eq_true, if_false] at *
    · omega
    · have h0 := h2 hex
      omega
  | casFail aw l r heq hex =>
    rw [heq] at h1 h2
    refine ⟨?_, fun hf => ?_⟩ <;>
      simp only [tokCount_append, tokCount_cons, hasToken_ready,
        Bool.false_eq_true, if_false] at *
    · omega
    · rw [hex] at hf
      simp at hf
  | casSucc aw l r heq hex =>
    rw [heq] at h1 h2
    have h0 := h2 hex
    refine ⟨?_, fun hf => ?_⟩ <;>
      simp only [tokCount_append, tokCount_cons, hasToken_ready, hasToken_haveToken,
        Bool.false_eq_true, if_false, if_true] at *
    · omega
    · simp at hf
  | upErr aw l r heq hst =>
    rw [heq] at h1 h2
    refine ⟨?_, fun hf => ?_⟩ <;>
      simp only [tokCount_append, tokCount_cons, hasToken_haveToken, if_true] at *
    · omega
    · omega
  | upMatch aw l r heq hne hst =>
    rw [heq] at h1 h2
    refine ⟨?_, fun hf => ?_⟩ <;>
      simp only [tokCount_append, tokCount_cons, hasToken_haveToken, hasToken_holder,
        if_true] at *
    · omega
    · have h0 := h2 hf
      omega
  | upMiss aw l r heq hne hnaw =>
    rw [heq] at h1 h2
    refine ⟨?_, fun hf => ?_⟩ <;>
      simp only [tokCount_append, tokCount_cons, hasToken_haveToken, if_true] at *
    · omega
    · omega
  | relStore t l r heq =>
    rw [heq] at h1 h2
    refine ⟨?_, fun hf => ?_⟩ <;>
      simp only [tokCount_append, tokCount_cons, hasToken_holder, if_true] at *
    · omega
    · have h0 := h2 hf
      omega
  | relFinish l r heq =>
    rw [heq] at h1 h2
    refine ⟨?_, fun hf => ?_⟩ <;>
      simp only [tokCount_append, tokCount_cons, hasToken_holder, if_true] at *
    · omega
    · omega
  | dropSub l r heq =>
    rw [heq] at h1 h2
    refine ⟨?_, fun hf => ?_⟩ <;>
      simp only [tokCount_append, tokCount_cons, hasToken_holder, if_true] at *
    · omega
    · have h0 := h2 hf
      omega
  | dropStore l r heq =>
    rw [heq] at h1 h2
    refine ⟨?_, fun hf => ?_⟩ <;>
      simp only [tokCount_append, tokCount_cons, hasToken_holder, if_true] at *
    · omega
    · have h0 := h2 hf
      omega
  | dropFinish l r heq =>
    rw [heq] at h1 h2
    refine ⟨?_, fun hf => ?_⟩ <;>
      simp only [tokCount_append, tokCount_cons, hasToken_holder, if_true] at *
    · omega
    · omega

theorem reach_inv {origin : Nat} {c : Conf} (h : Reach origin c) : Inv c := by
  induction h with
  | refl =>
    refine ⟨Nat.le_refl 1, fun hf => ?_⟩
    simp [initConf] at hf
  | tail hab hbc ih => exact step_preserves_inv hbc ih

/-! Driver helper lemmas. -/

theorem flush_waiting_state (s : Spim) : s.flush_waiting.state = s.state := rfl

theorem flush_waiting_periph (s : Spim) : s.flush_waiting.periph = s.periph := rfl

theorem flush_waiting_csns (s : Spim) : s.flush_waiting.csns = s.csns := rfl

theorem flushLoop_vdq_extends (w : List (PendHdl SendTransaction)) :
    ∀ v, ∃ add, (flushLoop w v).2 = v ++ add := by
  induction w with
  | nil =>
    intro v
    exact ⟨[], by simp [flushLoop]⟩
  | cons p rest ih =>
    intro v
    by_cases h8 : 8 ≤ v.length
    · exact ⟨[], by simp [flushLoop, h8]⟩
    · rcases hup : p.try_upgrade with ⟨fb1, res⟩
      rcases res with e | o
      · obtain ⟨add, ha⟩ := ih v
        exact ⟨add, by simp [flushLoop, h8, hup, ha]⟩
      · rcases o with _ | pl
        · exact ⟨[], by simp [flushLoop, h8, hup]⟩
        · obtain ⟨add, ha⟩ := ih (v ++ [⟨⟨fb1, pl.getD default⟩, 0⟩])
          refine ⟨⟨⟨fb1, pl.getD default⟩, 0⟩ :: add, ?_⟩
          simp [flushLoop, h8, hup, ha]

theorem flush_waiting_vdq_head (s : Spim) (e : InProgress) (rest : List InProgress)
    (h : s.vdq = e :: rest) : ∃ rest2, s.flush_waiting.vdq = e :: rest2 := by
  obtain ⟨add, ha⟩ := flushLoop_vdq_extends s.waiting s.vdq
  refine ⟨rest ++ add, ?_⟩
  show (flushLoop s.waiting s.vdq).2 = e :: (rest ++ add)
  rw [ha, h, List.cons_append]

theorem start_send_post_no_dma (s : Spim) :
    s.start_send_post ≠ .error PanicKind.dmaPollError := by
  rcases s with ⟨p, v, w, c, st⟩
  cases st with
  | Transferring => simp [Spim.start_send_post]
  | Idle =>
    cases v with
    | nil => simp [Spim.start_send_post]
    | cons d rest =>
      simp only [Spim.start_send_post]
      by_cases hlen : d.data.payload.data.length > d.start_offset
      · simp only [hlen, if_true]
        rcases hcs : Periph.change_speed p d.data.payload.speed_khz with e | p1
        · simp [hcs]
        · rcases hsp : setPin c d.data.payload.csn false with _ | cs1
          · simp [hcs, hsp]
          · by_cases h8 : 8 ≤ rest.length
            · simp [hcs, hsp, h8]
            · simp [hcs, hsp, h8]
      · simp [hlen]

theorem start_send_no_dma (s : Spim) :
    s.start_send ≠ .error PanicKind.dmaPollError :=
  start_send_post_no_dma s.flush_waiting

/-- C1: the claim says `release_to_complete` marks the payload *completed*
(a status distinct from *errored*) so that `is_complete` afterwards returns
`Ok(true)`.  The code instead stores `status::ERROR`: its body is
byte-for-byte that of `release_to_error`, the documented `COMPLETED`
constant is never stored anywhere in the source, and `is_complete` on the
released block returns `Err(())`, never `Ok(true)`.  This theorem evaluates
the code's behaviour, exhibiting the divergence. -/
theorem claim_C1_release_to_complete_marks_errored (h : ExHdl Nat) :
    h.release_to_complete = h.release_to_error ∧
    (h.release_to_complete).status = status.ERROR ∧
    status.ERROR ≠ status.COMPLETED ∧
    PendHdl.is_complete ⟨h.release_to_complete, status.INVALID⟩ = .error () := by
  refine ⟨rfl, rfl, by decide, ?_⟩
  simp [ExHdl.release_to_complete, PendHdl.is_complete, status.COMPLETED, status.ERROR]

/-- C3: `try_upgrade` implements exactly the four outcomes the spec lists,
in the spec's order: (a) failed test-and-set → `Ok(None)` with no other
state change; (b) terminal error status → exclusivity cleared again,
permanent `Err`; (c) status equals the awaited tag → fresh exclusive handle
with `live_refs` incremented; (d) other tag → exclusivity cleared,
`Ok(None)`.  Stated as equality between the source translation and the
specification function. -/
theorem claim_C3_try_upgrade_refines_spec (p : PendHdl T) :
    p.try_upgrade = tryUpgradeSpec p := by
  obtain ⟨⟨st, rc, ex, pl⟩, aw⟩ := p
  simp only [PendHdl.try_upgrade, tryUpgradeSpec]
  by_cases hex : ex <;> simp [hex]

/-- C4: the claim says dropping *any* handle (exclusive or pending)
decrements `live_refs`, and a dropped pending handle can be the one that
triggers teardown.  In the code only `FutureBoxExHdl` has a `Drop`
implementation; there is none for `FutureBoxPendHdl`, so dropping a pending
handle leaves `refcnt` unchanged (`PendHdl.drop` is the identity on the
control block) and can never trigger teardown: a block whose only
outstanding handle is a pending one keeps `refcnt = 1` forever. -/
theorem claim_C4_pend_drop_does_not_decrement (p : PendHdl Nat) (h : ExHdl Nat) :
    p.drop = p.fb ∧
    (p.drop).refcnt = p.fb.refcnt ∧
    (h.drop).1.refcnt = (h.fb.refcnt + 255) % 256 ∧
    (PendHdl.drop ⟨⟨status.KERNEL_ACCESS, 1, false, some 0⟩, status.KERNEL_ACCESS⟩).refcnt = 1 := by
  exact ⟨rfl, rfl, rfl, rfl⟩

/-- C5 counterexample: the claim says the pending handle returned by
`release_to_kernel` awaits the other domain's access tag and can later
upgrade successfully.  On a concrete handle the returned monitor awaits
`INVALID` (the sentinel, equal to neither domain tag), and its upgrade
attempt on the released block returns `Ok(None)`, not a fresh handle. -/
theorem claim_C5_counterexample :
    (ExHdl.release_to_kernel ⟨⟨status.USERSPACE_ACCESS, 2, true, some 5⟩, (5 : Nat)⟩).awaiting
        = status.INVALID ∧
    status.INVALID ≠ status.USERSPACE_ACCESS ∧
    status.INVALID ≠ status.KERNEL_ACCESS ∧
    PendHdl.try_upgrade (ExHdl.release_to_kernel ⟨⟨status.USERSPACE_ACCESS, 2, true, some 5⟩, (5 : Nat)⟩)
        = (⟨status.KERNEL_ACCESS, 2, false, some 5⟩, .ok none) ∧
    PendHdl.try_upgrade ⟨⟨status.USERSPACE_ACCESS, 2, false, some 5⟩, status.INVALID⟩
        = (⟨status.USERSPACE_ACCESS, 2, false, some 5⟩, .ok none) := by
  refine ⟨rfl, by decide, by decide, ?_, ?_⟩ <;>
    simp [PendHdl.try_upgrade, ExHdl.release_to_kernel, ExHdl.convert_to_monitor,
      status.KERNEL_ACCESS, status.USERSPACE_ACCESS, status.ERROR, status.INVALID]

/-- C5 amended: `release_to_kernel` (resp. `release_to_userspace`) stores
the target domain's access tag into `status`, clears `ex_taken`, and
consumes the handle without touching `live_refs`; but the pending handle it
returns awaits the `INVALID` sentinel, not the other domain's access tag,
so it can never upgrade successfully — on any block whose status is not the
(never-stored) sentinel, an `INVALID`-awaiting upgrade attempt never
returns a fresh exclusive handle. -/
theorem claim_C5_amended_releases_return_invalid_monitor (h : ExHdl T) :
    h.release_to_kernel
        = ⟨{ h.fb with status := status.KERNEL_ACCESS, ex_taken := false }, status.INVALID⟩ ∧
    h.release_to_userspace
        = ⟨{ h.fb with status := status.USERSPACE_ACCESS, ex_taken := false }, status.INVALID⟩ ∧
    ∀ fb : FutureBox T, fb.status ≠ status.INVALID →
      ∀ fb' pl, PendHdl.try_upgrade ⟨fb, status.INVALID⟩ ≠ (fb', .ok (some pl)) := by
  refine ⟨rfl, rfl, ?_⟩
  intro fb hne fb' pl
  simp only [PendHdl.try_upgrade]
  by_cases hex : fb.ex_taken
  · simp [hex]
  · simp only [hex, Bool.false_eq_true, if_false]
    by_cases herr : fb.status = status.ERROR
    · simp [herr]
    · simp [herr, hne]

/-- C5 amended witness: the amended statement applied to a concrete handle
and a concrete control block, discharging the status hypothesis there. -/
theorem claim_C5_amended_witness :
    PendHdl.try_upgrade (⟨⟨status.KERNEL_ACCESS, 2, false, some 5⟩, status.INVALID⟩ : PendHdl Nat)
      ≠ (⟨status.KERNEL_ACCESS, 3, true, some 5⟩, .ok (some (some 5))) := by
  exact (claim_C5_amended_releases_return_invalid_monitor
    ⟨⟨status.USERSPACE_ACCESS, 2, true, some 5⟩, (5 : Nat)⟩).2.2
    ⟨status.KERNEL_ACCESS, 2, false, some 5⟩ (by decide)
    ⟨status.KERNEL_ACCESS, 3, true, some 5⟩ (some 5)

/-- C9: every way of giving up an exclusive handle — `release_to_kernel`,
`release_to_userspace`, `release_to_error`, `release_to_complete`, and
plain drop — leaves `ex_taken` false; after a successful upgrade the block
has `ex_taken` true, so any further `try_upgrade` (whatever its awaited
tag) returns `Ok(None)` until exclusivity is released again; and after a
domain release, the upgrade attempt of a handle awaiting the stored domain
tag succeeds, returning a fresh exclusive handle. -/
theorem claim_C9_release_clears_ex_taken (h : ExHdl T) :
    (h.release_to_userspace).fb.ex_taken = false ∧
    (h.release_to_kernel).fb.ex_taken = false ∧
    (h.release_to_error).ex_taken = false ∧
    (h.release_to_complete).ex_taken = false ∧
    (h.drop).1.ex_taken = false ∧
    (∀ (p : PendHdl T) fb' pl, p.try_upgrade = (fb', .ok (some pl)) →
      fb'.ex_taken = true ∧
      ∀ aw2, PendHdl.try_upgrade ⟨fb', aw2⟩ = (fb', .ok none)) ∧
    (PendHdl.try_upgrade ⟨(h.release_to_kernel).fb, status.KERNEL_ACCESS⟩
        = (⟨status.KERNEL_ACCESS, (h.fb.refcnt + 1) % 256, true, h.fb.payload⟩,
           .ok (some h.fb.payload))) ∧
    (PendHdl.try_upgrade ⟨(h.release_to_userspace).fb, status.USERSPACE_ACCESS⟩
        = (⟨status.USERSPACE_ACCESS, (h.fb.refcnt + 1) % 256, true, h.fb.payload⟩,
           .ok (some h.fb.payload))) := by
  refine ⟨rfl, rfl, rfl, rfl, rfl, ?_, ?_, ?_⟩
  · intro p fb' pl hup
    have hfb : fb'.ex_taken = true := by
      simp only [PendHdl.try_upgrade] at hup
      by_cases hex : p.fb.ex_taken
      · simp [hex] at hup
      · simp only [hex, Bool.false_eq_true, if_false] at hup
        by_cases herr : p.fb.status = status.ERROR
        · simp [herr] at hup
        · by_cases haw : p.fb.status = p.awaiting
          · simp only [herr, haw, if_true, if_false, ite_true, ite_false] at hup
            have herr2 : ¬(p.awaiting = status.ERROR) := by rw [← haw]; exact herr
            rw [if_neg herr2, Prod.mk.injEq] at hup
            rw [← hup.1]
          · simp [herr, haw] at hup
    refine ⟨hfb, ?_⟩
    intro aw2
    simp [PendHdl.try_upgrade, hfb]
  · simp [PendHdl.try_upgrade, ExHdl.release_to_kernel, ExHdl.convert_to_monitor,
      status.KERNEL_ACCESS, status.ERROR]
  · simp [PendHdl.try_upgrade, ExHdl.release_to_userspace, ExHdl.convert_to_monitor,
      status.USERSPACE_ACCESS, status.ERROR]

/-- C9 witness: the theorem applied at a concrete exclusive handle, with
the inner implication discharged on a concrete successful upgrade. -/
theorem claim_C9_witness :
    PendHdl.try_upgrade (⟨⟨status.KERNEL_ACCESS, 2, true, some 7⟩, status.KERNEL_ACCESS⟩ : PendHdl Nat)
      = (⟨status.KERNEL_ACCESS, 2, true, some 7⟩, .ok none) := by
  have h9 := claim_C9_release_clears_ex_taken (⟨⟨status.USERSPACE_ACCESS, 1, true, some 7⟩, (7 : Nat)⟩ : ExHdl Nat)
  have hsucc : PendHdl.try_upgrade (⟨⟨status.KERNEL_ACCESS, 1, false, some 7⟩, status.KERNEL_ACCESS⟩ : PendHdl Nat)
      = (⟨status.KERNEL_ACCESS, 2, true, some 7⟩, .ok (some (some 7))) := by
    simp [PendHdl.try_upgrade, status.KERNEL_ACCESS, status.ERROR]
  exact (h9.2.2.2.2.2.1 _ _ _ hsucc).2 status.KERNEL_ACCESS

/-- C2: in every interleaving of the atomic steps of `try_upgrade`, the
release operations, and exclusive-handle drops, starting from the
allocation of the control block, at most one exclusive handle exists at
any instant — the compare-exchange on `ex_taken` ensures no two upgraders
both succeed while an earlier exclusive handle is alive. -/
theorem claim_C2_at_most_one_exclusive (origin : Nat) (c : Conf) (h : Reach origin c) :
    exCount c.agents ≤ 1 :=
  Nat.le_trans (count_holder_le_token c.agents) (reach_inv h).1

/-- C2 witness: the theorem applied to the concrete reachable allocation
configuration. -/
theorem claim_C2_witness : exCount (initConf status.KERNEL_ACCESS).agents ≤ 1 :=
  claim_C2_at_most_one_exclusive status.KERNEL_ACCESS (initConf status.KERNEL_ACCESS)
    Relation.ReflTransGen.refl

theorem end_send_post_busy (p : Periph) (wip : InProgress) (rest2 : List InProgress)
    (w : List (PendHdl SendTransaction)) (c : List Bool)
    (hcsn : wip.data.payload.csn < c.length)
    (hev : p.events_end = true ∨ p.events_stopped = true) :
    (Spim.mk p (wip :: rest2) w c State.Transferring).end_send_post =
      (if p.txd_amount + wip.start_offset = wip.data.payload.data.length then
        match (Spim.mk (Periph.mk false false p.txd_amount p.rxd_amount p.txd_maxcnt p.rxd_maxcnt p.frequency p.starts) rest2 w (c.set wip.data.payload.csn true) State.Idle).start_send with
        | .error k => .error k
        | .ok (s3, fr) => .ok (s3, Freed.completed wip.data.release_to_complete :: fr)
      else if 8 ≤ rest2.length then .error .queueOverflow
      else .ok (Spim.mk (Periph.mk false false p.txd_amount p.rxd_amount p.txd_maxcnt p.rxd_maxcnt p.frequency p.starts) (InProgress.mk wip.data (wip.start_offset + p.txd_amount) :: rest2) w (c.set wip.data.payload.csn true) State.Idle, [])) := by
  rcases p with ⟨ee, es, txa, rxa, txm, rxm, fr, sts⟩
  simp only at hev
  rcases hev with he | hs
  · subst he
    simp [Spim.end_send_post, Periph.dma_transfer_end, Periph.clear_events, setPin, hcsn]
  · subst hs
    simp [Spim.end_send_post, Periph.dma_transfer_end, Periph.clear_events, setPin, hcsn]

/-- C6: `end_send` is asymmetric between full and partial completion.
When the engine's reported `tx_len` plus the front entry's `start_offset`
equals the buffer length, the chip-select pin is set inactive, the entry
is released through `release_to_complete`, and `start_send` is invoked
immediately on the remaining queue (chained start).  When the sum falls
short of the buffer length, the entry's `start_offset` advances by exactly
`tx_len`, the entry is pushed back at the front of the in-flight queue,
the state stays `Idle`, and no DMA start is issued (the `starts` counter
of the resulting peripheral state is unchanged). -/
theorem claim_C6_end_send_completion_asymmetry (s : Spim) (wip : InProgress)
    (rest2 : List InProgress)
    (hst : s.state = State.Transferring)
    (hq : s.flush_waiting.vdq = wip :: rest2)
    (hcsn : wip.data.payload.csn < s.csns.length)
    (hev : s.periph.events_end = true ∨ s.periph.events_stopped = true)
    (hcap : rest2.length < 8) :
    (s.periph.txd_amount + wip.start_offset = wip.data.payload.data.length →
      s.end_send = ((Spim.mk (Periph.mk false false s.periph.txd_amount s.periph.rxd_amount s.periph.txd_maxcnt s.periph.rxd_maxcnt s.periph.frequency s.periph.starts) rest2 s.flush_waiting.waiting (s.csns.set wip.data.payload.csn true) State.Idle).start_send).map
        (fun r => (r.1, Freed.completed wip.data.release_to_complete :: r.2))) ∧
    (s.periph.txd_amount + wip.start_offset < wip.data.payload.data.length →
      s.end_send = .ok (Spim.mk (Periph.mk false false s.periph.txd_amount s.periph.rxd_amount s.periph.txd_maxcnt s.periph.rxd_maxcnt s.periph.frequency s.periph.starts) (InProgress.mk wip.data (wip.start_offset + s.periph.txd_amount) :: rest2) s.flush_waiting.waiting (s.csns.set wip.data.payload.csn true) State.Idle, [])) := by
  have ht : s.flush_waiting
      = Spim.mk s.periph (wip :: rest2) s.flush_waiting.waiting s.csns State.Transferring := by
    rw [← hq, ← hst]
    rfl
  constructor
  · intro hfull
    show s.flush_waiting.end_send_post = _
    rw [ht, end_send_post_busy _ _ _ _ _ hcsn hev, if_pos hfull]
    rcases hss : (Spim.mk (Periph.mk false false s.periph.txd_amount s.periph.rxd_amount s.periph.txd_maxcnt s.periph.rxd_maxcnt s.periph.frequency s.periph.starts) rest2 s.flush_waiting.waiting (s.csns.set wip.data.payload.csn true) State.Idle).start_send with k | r
    · simp [hss, Except.map]
    · simp [hss, Except.map]
  · intro hshort
    have hne : s.periph.txd_amount + wip.start_offset ≠ wip.data.payload.data.length :=
      Nat.ne_of_lt hshort
    show s.flush_waiting.end_send_post = _
    rw [ht, end_send_post_busy _ _ _ _ _ hcsn hev, if_neg hne,
      if_neg (Nat.not_le.mpr hcap)]

/-- C6 witness: a 16-byte transfer on chip select 0 while `Transferring`,
with the engine reporting 16 transmitted bytes (full case applied; the
hypotheses of the theorem are discharged on this concrete state). -/
theorem claim_C6_witness :
    (Spim.mk samplePeriphEnd [sampleEntry 16 0] [] [true] State.Transferring).end_send
      = ((Spim.mk (Periph.mk false false 16 0 0 0 0 5) [] [] ([true].set 0 true) State.Idle).start_send).map
        (fun r => (r.1, Freed.completed (sampleEntry 16 0).data.release_to_complete :: r.2)) :=
  (claim_C6_end_send_completion_asymmetry
    (Spim.mk samplePeriphEnd [sampleEntry 16 0] [] [true] State.Transferring)
    (sampleEntry 16 0) [] rfl rfl (by decide) (Or.inl rfl) (by decide)).1 (by decide)

/-- C7 counterexample: the claim says that when the front entry's
`start_offset` already covers the whole buffer, `start_send` leaves the
in-flight queue, the entry, and its control block unchanged.  On a
concrete idle driver whose front entry has `start_offset = 16` for a
16-byte buffer, `start_send` removes the entry from the queue and drops
its exclusive handle, whose `Drop` marks the control block errored
(status `ERROR`, `refcnt` decremented to 0, payload freed). -/
theorem claim_C7_counterexample :
    ((Spim.mk samplePeriphQuiet [sampleEntry 16 16] [] [true] State.Idle).start_send
        = .ok (Spim.mk samplePeriphQuiet [] [] [true] State.Idle,
            [Freed.dropped (FutureBox.mk status.ERROR 0 false none)])) ∧
    ([] : List InProgress) ≠ [sampleEntry 16 16] ∧
    status.ERROR ≠ (sampleEntry 16 16).data.fb.status := by
  refine ⟨rfl, by decide, by decide⟩

/-- C7 amended: if `start_send` finds the driver `Idle` and the front
in-flight entry's `start_offset` already covers the whole buffer, the
entry is popped (not peeked) and dropped: it is removed from the in-flight
queue and its exclusive handle's `Drop` marks the control block errored
(status `ERROR`, `refcnt` decremented, payload freed, `ex_taken`
cleared); the driver state stays `Idle` and the pins and peripheral are
untouched. -/
theorem claim_C7_amended_covered_entry_dropped (s : Spim) (e : InProgress)
    (rest2 : List InProgress)
    (hst : s.state = State.Idle)
    (hq : s.flush_waiting.vdq = e :: rest2)
    (hcov : e.data.payload.data.length ≤ e.start_offset) :
    s.start_send = .ok (Spim.mk s.periph rest2 s.flush_waiting.waiting s.csns State.Idle,
      [Freed.dropped (FutureBox.mk status.ERROR ((e.data.fb.refcnt + 255) % 256) false none)]) := by
  have ht : s.flush_waiting
      = Spim.mk s.periph (e :: rest2) s.flush_waiting.waiting s.csns State.Idle := by
    rw [← hq, ← hst]
    rfl
  show s.flush_waiting.start_send_post = _
  rw [ht]
  simp only [Spim.start_send_post]
  rw [if_neg (Nat.not_lt.mpr hcov)]
  exact rfl

/-- C7 amended witness: the amended statement applied to a concrete idle
driver whose front entry has offset 16 on a 16-byte buffer. -/
theorem claim_C7_amended_witness :
    (Spim.mk samplePeriphQuiet [sampleEntry 16 16] [] [true] State.Idle).start_send
      = .ok (Spim.mk samplePeriphQuiet [] [] [true] State.Idle,
          [Freed.dropped (FutureBox.mk status.ERROR 0 false none)]) :=
  claim_C7_amended_covered_entry_dropped
    (Spim.mk samplePeriphQuiet [sampleEntry 16 16] [] [true] State.Idle)
    (sampleEntry 16 16) [] rfl rfl (by decide)

/-- C8 counterexample: the claim says a failed `send` leaves the control
block unchanged.  On a concrete driver whose in-flight queue is full, the
failed call returns the handle with the block's `live_refs` already
incremented from 1 to 2 by the monitor created before the capacity check
— the discarded monitor never gives the count back. -/
theorem claim_C8_counterexample :
    ((Spim.mk samplePeriphQuiet (List.replicate 8 (sampleEntry 4 0)) [] [true] State.Idle).send
        (sampleHdl 4)
      = .ok (Spim.mk samplePeriphQuiet (List.replicate 8 (sampleEntry 4 0)) [] [true] State.Idle,
          [], .error (ExHdl.mk (FutureBox.mk status.KERNEL_ACCESS 2 true (some (sampleTx 4)))
            (sampleTx 4)))) ∧
    (2 : Nat) ≠ (sampleHdl 4).fb.refcnt := by
  refine ⟨rfl, by decide⟩

/-- C8 amended: `send` fails exactly when the chip-select index is out of
range or the in-flight queue is full, in both cases returning `Err` with
the exclusive handle unconsumed and the driver's queues and state
unchanged.  The out-of-range failure touches nothing; the queue-full
failure happens after `create_monitor` has already incremented the
control block's `live_refs`, and the increment is not undone.  On success
the entry is appended with `start_offset = 0` and the returned value is
the monitor pending handle. -/
theorem claim_C8_amended_send_failures (s : Spim) (st : ExHdl SendTransaction) :
    (s.csns.length ≤ st.payload.csn → s.send st = .ok (s, [], .error st)) ∧
    (st.payload.csn < s.csns.length → 8 ≤ s.vdq.length →
      s.send st = .ok (s, [], .error (ExHdl.mk (FutureBox.mk st.fb.status
        ((st.fb.refcnt + 1) % 256) st.fb.ex_taken st.fb.payload) st.payload))) ∧
    (st.payload.csn < s.csns.length → s.vdq.length < 8 → s.state = State.Transferring →
      s.send st = .ok ({ s with vdq := s.vdq ++ [InProgress.mk (st.create_monitor).1 0] }, [],
        .ok (st.create_monitor).2)) ∧
    (st.payload.csn < s.csns.length → s.vdq.length < 8 → s.state = State.Idle →
      ∀ s2 fr res, s.send st = .ok (s2, fr, res) → res = .ok (st.create_monitor).2) ∧
    (∀ s2 fr h2, s.send st = .ok (s2, fr, .error h2) →
      s.csns.length ≤ st.payload.csn ∨ 8 ≤ s.vdq.length) := by
  refine ⟨fun h1 => ?_, fun h1 h2 => ?_, fun h1 h2 h3 => ?_, fun h1 h2 h3 s2 fr res hsend => ?_,
    fun s2 fr h2 hsend => ?_⟩
  · simp [Spim.send, h1]
  · have hnot : ¬(s.csns.length ≤ st.payload.csn) := Nat.not_le.mpr h1
    simp [Spim.send, hnot, h2, ExHdl.create_monitor]
  · have hnot : ¬(s.csns.length ≤ st.payload.csn) := Nat.not_le.mpr h1
    have hnf : ¬(8 ≤ s.vdq.length) := Nat.not_le.mpr h2
    simp [Spim.send, hnot, hnf, h3]
  · have hnot : ¬(s.csns.length ≤ st.payload.csn) := Nat.not_le.mpr h1
    have hnf : ¬(8 ≤ s.vdq.length) := Nat.not_le.mpr h2
    simp only [Spim.send, if_neg hnot, if_neg hnf, h3] at hsend
    rcases hss : (Spim.mk s.periph (s.vdq ++ [InProgress.mk (st.create_monitor).1 0]) s.waiting s.csns State.Idle).start_send
        with k | ⟨r1, r2⟩
    · rw [hss] at hsend
      simp at hsend
    · rw [hss] at hsend
      simp only [Except.ok.injEq, Prod.mk.injEq] at hsend
      exact hsend.2.2.symm
  · by_cases hcs : s.csns.length ≤ st.payload.csn
    · exact Or.inl hcs
    · by_cases hfq : 8 ≤ s.vdq.length
      · exact Or.inr hfq
      · exfalso
        simp only [Spim.send, if_neg hcs, if_neg hfq] at hsend
        rcases hstc : s.state with _ | _
        · simp only [hstc] at hsend
          rcases hss : (Spim.mk s.periph (s.vdq ++ [InProgress.mk (st.create_monitor).1 0]) s.waiting s.csns State.Idle).start_send
              with k | ⟨r1, r2⟩
          · rw [hss] at hsend
            simp at hsend
          · rw [hss] at hsend
            simp at hsend
        · simp only [hstc] at hsend
          simp at hsend

/-- C8 amended witness: the out-of-range case on a driver with no pins,
and the queue-full case on a full driver, both applied concretely. -/
theorem claim_C8_amended_witness :
    ((Spim.mk samplePeriphQuiet [] [] [] State.Idle).send (sampleHdl 4)
      = .ok (Spim.mk samplePeriphQuiet [] [] [] State.Idle, [], .error (sampleHdl 4))) ∧
    ((Spim.mk samplePeriphQuiet (List.replicate 8 (sampleEntry 4 0)) [] [true] State.Idle).send
        (sampleHdl 4)
      = .ok (Spim.mk samplePeriphQuiet (List.replicate 8 (sampleEntry 4 0)) [] [true] State.Idle,
          [], .error (ExHdl.mk (FutureBox.mk status.KERNEL_ACCESS 2 true (some (sampleTx 4)))
            (sampleTx 4)))) :=
  ⟨(claim_C8_amended_send_failures (Spim.mk samplePeriphQuiet [] [] [] State.Idle)
      (sampleHdl 4)).1 (by decide),
   (claim_C8_amended_send_failures
      (Spim.mk samplePeriphQuiet (List.replicate 8 (sampleEntry 4 0)) [] [true] State.Idle)
      (sampleHdl 4)).2.1 (by decide) (by decide)⟩

theorem end_send_post_event_no_dma (s : Spim)
    (hev : s.periph.events_end = true ∨ s.periph.events_stopped = true) :
    s.end_send_post ≠ .error PanicKind.dmaPollError := by
  rcases s with ⟨p, v, w, c, st⟩
  simp only at hev
  have hdma : p.dma_transfer_end
      = (Periph.mk false false p.txd_amount p.rxd_amount p.txd_maxcnt p.rxd_maxcnt p.frequency p.starts,
         .ok (p.txd_amount, p.rxd_amount)) := by
    rcases hev with he | hs
    · simp [Periph.dma_transfer_end, Periph.clear_events, he]
    · simp [Periph.dma_transfer_end, Periph.clear_events, hs]
  cases st with
  | Idle => simp [Spim.end_send_post]
  | Transferring =>
    cases v with
    | nil => simp [Spim.end_send_post]
    | cons d rest =>
      simp only [Spim.end_send_post]
      rw [hdma]
      by_cases hin : d.data.payload.csn < c.length
      · simp only [setPin, if_pos hin]
        by_cases hfull : p.txd_amount + d.start_offset = d.data.payload.data.length
        · simp only [hfull, if_true, ite_true]
          rcases hss : (Spim.mk (Periph.mk false false p.txd_amount p.rxd_amount p.txd_maxcnt p.rxd_maxcnt p.frequency p.starts) rest w (c.set d.data.payload.csn true) State.Idle).start_send
              with k | ⟨r1, r2⟩
          · have hk := start_send_no_dma (Spim.mk (Periph.mk false false p.txd_amount p.rxd_amount p.txd_maxcnt p.rxd_maxcnt p.frequency p.starts) rest w (c.set d.data.payload.csn true) State.Idle)
            rw [hss] at hk
            simp only [hss]
            exact hk
          · simp [hss]
        · by_cases h8 : 8 ≤ rest.length
          · simp [hfull, h8]
          · simp [hfull, h8]
      · simp [setPin, hin]

/-- C10: whenever `end_send` is entered with state `Transferring` and a
non-empty in-flight queue while neither the `end` nor the `stopped` event
flag is set, the DMA poll yields the non-fatal `NotDone` error and
`end_send` panics.  Under the invocation discipline that `end_send` runs
once per hardware completion/stop event — an event flag is still pending
at entry — that panic is unreachable. -/
theorem claim_C10_end_send_poll_panic (s : Spim) :
    (s.state = State.Transferring → s.vdq ≠ [] →
      s.periph.events_end = false → s.periph.events_stopped = false →
      s.end_send = .error PanicKind.dmaPollError) ∧
    (s.periph.events_end = true ∨ s.periph.events_stopped = true →
      s.end_send ≠ .error PanicKind.dmaPollError) := by
  constructor
  · intro hst hne hee hes
    rcases hvq : s.vdq with _ | ⟨d, rest⟩
    · exact absurd hvq hne
    · obtain ⟨rest2, hq⟩ := flush_waiting_vdq_head s d rest hvq
      have ht : s.flush_waiting
          = Spim.mk s.periph (d :: rest2) s.flush_waiting.waiting s.csns State.Transferring := by
        rw [← hq, ← hst]
        rfl
      show s.flush_waiting.end_send_post = _
      rw [ht]
      simp [Spim.end_send_post, Periph.dma_transfer_end, Periph.clear_events, hee, hes]
  · intro hev
    exact end_send_post_event_no_dma s.flush_waiting hev

/-- C10 witness: a concrete spurious `end_send` while `Transferring` with
no event pending panics on the DMA poll, while a concrete `end_send` with
the `end` event pending does not. -/
theorem claim_C10_witness :
    ((Spim.mk samplePeriphQuiet [sampleEntry 16 0] [] [true] State.Transferring).end_send
        = .error PanicKind.dmaPollError) ∧
    (Spim.mk samplePeriphEnd [] [] [true] State.Idle).end_send
        ≠ .error PanicKind.dmaPollError :=
  ⟨(claim_C10_end_send_poll_panic
      (Spim.mk samplePeriphQuiet [sampleEntry 16 0] [] [true] State.Transferring)).1
      rfl (by decide) rfl rfl,
   (claim_C10_end_send_poll_panic (Spim.mk samplePeriphEnd [] [] [true] State.Idle)).2
      (Or.inl rfl)⟩

end Mnemos
